import Mathlib

set_option maxRecDepth 9000
set_option linter.unusedVariables false

/-!
Verification of the address-intelligence orchestration layer of the
`shipsy-address-intelligence` repository.

The Python configuration module `backend/country_config.py`, the base prompt
template `backend/templates/base-prompt.txt` and the country rules file
`backend/templates/country-rules/south-africa.json` are embedded below from
their sources in `src/HLD_COUNTRY_CONFIG.md`.  Python strings are modelled as
Lean `String` (a list of characters); Python `str.replace`, `str.strip`,
`str.lower` and `str.upper` are modelled character-exactly on the ASCII range,
which covers all data handled by this code path.
-/

namespace Shipsy

/-- ASCII whitespace as stripped by Python `str.strip()` with no argument.
Non-ASCII Unicode whitespace is not modelled; the repository only feeds
ASCII-spaced country names through this path. -/
def isSpaceChar (c : Char) : Bool :=
  c = ' ' || c = '\t' || c = '\n' || c = '\r' || c = '\x0b' || c = '\x0c'

/-- One-character lower-casing, the behaviour of Python `str.lower` on the
ASCII range. -/
def lowerChar (c : Char) : Char :=
  if 65 ≤ c.toNat ∧ c.toNat ≤ 90 then Char.ofNat (c.toNat + 32) else c

/-- One-character upper-casing, the behaviour of Python `str.upper` on the
ASCII range. -/
def upperChar (c : Char) : Char :=
  if 97 ≤ c.toNat ∧ c.toNat ≤ 122 then Char.ofNat (c.toNat - 32) else c

/-- Python `s.lower()`. -/
def pylower (s : String) : String := ⟨s.data.map lowerChar⟩

/-- Python `s.upper()`. -/
def pyupper (s : String) : String := ⟨s.data.map upperChar⟩

/-- Drop characters satisfying `p` from both ends of a list; the shape of
Python `str.strip`. -/
def dropEdge (p : Char → Bool) (l : List Char) : List Char :=
  ((l.dropWhile p).reverse.dropWhile p).reverse

/-- Python `s.strip()` (whitespace from both ends). -/
def pystrip (s : String) : String := ⟨dropEdge isSpaceChar s.data⟩

/-- Python `s.strip('-')` (hyphens from both ends). -/
def stripHyphens (s : String) : String := ⟨dropEdge (fun c => c == '-') s.data⟩

/-- Does `pat` occur at the very start of the second list? -/
def leadsWith : List Char → List Char → Bool
  | [], _ => true
  | _ :: _, [] => false
  | a :: as, b :: bs => a == b && leadsWith as bs

/-- Does `pat` occur anywhere inside the second list? -/
def occursIn (pat : List Char) : List Char → Bool
  | [] => leadsWith pat []
  | c :: rest => leadsWith pat (c :: rest) || occursIn pat rest

/-- Recursor-shaped twin of `occursIn` whose evaluation is iterative, used to
evaluate occurrence tests on the long prompt template; `occursIn_eq_occursInR`
below proves the two definitions pointwise equal. -/
def occursInR (pat : List Char) (s : List Char) : Bool :=
  s.rec (leadsWith pat []) (fun c rest ih => leadsWith pat (c :: rest) || ih)

/-- Scanner of Python `str.replace`: emits `new` at each left-most
non-overlapping match of `old` and copies every other character.  The `skip`
counter consumes the tail of a match whose replacement was just emitted. -/
def goRepl (old new : List Char) : List Char → Nat → List Char
  | [], _ => []
  | _ :: rest, Nat.succ k => goRepl old new rest k
  | c :: rest, 0 =>
      if leadsWith old (c :: rest) then new ++ goRepl old new rest (old.length - 1)
      else c :: goRepl old new rest 0

/-- Python `s.replace(old, new)` on character lists.  The empty pattern is
never used by the repository and is modelled as the identity. -/
def pyReplaceL (old new s : List Char) : List Char :=
  match old with
  | [] => s
  | _ :: _ => goRepl old new s 0

/-- Python `s.replace(old, new)` on strings. -/
def pyReplace (s old new : String) : String := ⟨pyReplaceL old.data new.data s.data⟩

/-- Fuel-bounded form of the loop `while '--' in s: s = s.replace('--', '-')`
from `normalize_country_name`; every iteration strictly shortens the string,
so `s.length` fuel always suffices. -/
def collapseGo : Nat → List Char → List Char
  | 0, s => s
  | Nat.succ f, s =>
      if occursIn ['-', '-'] s then collapseGo f (pyReplaceL ['-', '-'] ['-'] s) else s

/-- The hyphen-collapsing loop of `normalize_country_name`. -/
def collapseHyphens (s : String) : String := ⟨collapseGo s.data.length s.data⟩

/-- The `COUNTRY_CODE_TO_NAME` dictionary of `backend/country_config.py`. -/
def COUNTRY_CODE_TO_NAME : List (String × String) :=
  [("ZA", "south-africa"), ("US", "united-states"), ("GB", "united-kingdom")]

/-- Dictionary membership test `country_input.upper() in COUNTRY_CODE_TO_NAME`
together with the lookup used on success. -/
def lookupCode (k : String) : Option String :=
  match COUNTRY_CODE_TO_NAME.find? (fun p => p.1 == k) with
  | some p => some p.2
  | none => none

/-- Embedding of `country_config.normalize_country_name`: empty input defaults
to `"south-africa"`; otherwise the input is stripped, looked up as a country
code, and failing that lower-cased, space/underscore-hyphenated, de-doubled
and hyphen-trimmed. -/
def normalize_country_name (country_input : String) : String :=
  if country_input = "" then "south-africa"
  else
    let s := pystrip country_input
    match lookupCode (pyupper s) with
    | some slug => slug
    | none =>
        stripHyphens (collapseHyphens (pyReplace (pyReplace (pylower s) " " "-") "_" "-"))

/-- The two placeholder strings of `backend/templates/base-prompt.txt`. -/
def phAddress : String := "\x7baddress\x7d"

/-- The second placeholder of the base prompt template. -/
def phRules : String := "\x7bconfigurable_rules\x7d"

def basePromptPre : String :=
  "You are \"LogiCheck-Global\", an expert address-quality assessor. Your job is to take ONE candidate address (which may be unstructured or partially structured) and decide whether it is Complete & Logistically Usable based on the provided Country Configuration Rules.\n\nAddress to validate: "

def basePromptMid : String :=
  "\nCountry Configuration Rules: "

def basePromptPost : String :=
  "\n\nIMPORTANT: If the address contains a city name followed by a state/province abbreviation (e.g., \"City, AB\"), extract the city name properly.\n\n1. NORMALISE (Universal)\n   • Trim extra whitespace, standardise casing (Title Case for names, UPPER for primary administrative unit codes).\n   • Expand common abbreviations using the normalization rules (e.g., \"St/Str\" → \"Street\", \"JHB\" → \"Johannesburg\").\n   • Rewrite coordinates to 6-decimal precision if present.\n\n2. VALIDATE COMPONENTS (Apply Rules)\n   All components must pass unless explicitly \"N/A\".\n   \n   a. Street Number: Must be a positive integer or legal stand/erf/lot number.\n   b. Street Name: ≥ 3 alphabetic characters, not purely numeric. Must align with common street types.\n   c. Suburb/Locality: Must be a recognized local administrative unit for the country.\n   d. Town/City: Must be a valid city for the country and consistent with suburb.\n   e. Province/State (Primary Administrative Unit): MUST be exactly one of the names/codes listed in validation.provinceConfig.list.\n   f. Postal Code: MUST match the validation.postalCode.formatRegex and fall within one of the validation.postalCode.ranges.\n   g. Latitude/Longitude: MUST be inside the country bounding box defined by validation.coordinateBounds. NEVER return 0,0.\n   h. ZoneID/Routing Code: If supplied, must match validation.zoneIdRegex.\n\n3. SPECIAL ADDRESS TYPES (Universal/Rule-Aided)\n   • PO Box addresses: Identify and validate PO Box numbers. Format as \"Post Office Box [number], [city]...\"\n   • Unit/Apartment addresses: Extract unit/apartment/flat numbers and include in normalized format.\n\n4. CROSS-CHECK (Universal)\n   • Coordinate ↔ suburb/city distance ≤ 2 km (haversine).\n   • Primary Administrative Unit (Province/State) inferred from coordinates must equal stated unit.\n   • Reject invalid placeholders like \"StreetNo=0\" or \"PostalCode=0000\".\n   • PO Box addresses should not have street addresses (mutually exclusive).\n\n5. CONFIDENCE SCORING (Universal Score Breakdown)\n   • Start at 100, subtract:\n       – 25 pts for missing street address (critical for delivery)\n       – 20 pts for missing city/town\n       – 20 pts for missing Province/State\n       – 30 pts for invalid Province/State (not in the configured list)\n       – 15 pts for invalid postal code (format or out of range)\n       – 10 pts for missing postal code\n       – 25 pts for coordinates outside configured country bounds\n       – 10 pts for PO Box without number\n       – 10 pts for coordinate mismatch ≥ 2 km\n       – 5 pts for minor formatting issues (abbrev, casing)\n   • Clamp to [0,100].\n   • Map to qualitative band: 90–100 → \"High\", 70–89 → \"Medium\", 50–69 → \"Low\", <50 → \"Unusable\".\n\n6. GEOCODING REQUIREMENT (CRITICAL)\n   • You MUST ALWAYS provide latitude and longitude.\n   • Use your knowledge of the country's geography to provide the most accurate coordinates possible.\n   • If exact address coordinates unknown → use suburb/area coordinates.\n   • If suburb unknown → use the nearest city coordinate from referenceGeocodes.\n\n7. OUTPUT SCHEMA (Universal)\n   Output EXACTLY in this JSON Schema:\n   \x7b\n     \"normalizedAddress\": \"<string>\",\n     \"fields\": \x7b\n       \"streetNumber\": <int|null>,\n       \"streetName\": \"<string|null>\",\n       \"suburb\": \"<string|null>\",\n       \"city\": \"<string|null>\",\n       \"province\": \"<string|null>\",\n       \"postalCode\": \"<string|null>\",\n       \"latitude\": <float|null>,\n       \"longitude\": <float|null>,\n       \"zoneId\": \"<string|null>\"\n     \x7d,\n     \"completeness\": \"<Complete|Incomplete>\",\n     \"confidence\": \x7b\n       \"score\": <0-100>,\n       \"band\": \"<High|Medium|Low|Unusable>\"\n     \x7d,\n     \"issues\": [\n       \"<string>\", \"...\"\n     ],\n     \"recommendedFixes\": [\n       \"<string>\", \"...\"\n     ]\n   \x7d\n\nDECISION RULE\n• Return completeness = \"Complete\" ONLY if:\n   – All mandatory fields are present and valid, AND\n   – confidence.band is \"High\" or \"Medium\".\n• Otherwise return \"Incomplete\", listing issues and actionable fixes.\n\nSTYLE & BEHAVIOUR\n• Never hallucinate data. If unsure, leave field null and flag in issues (except coordinates, which are always required).\n• Be concise; no commentary outside the JSON.\n• Follow data privacy principles: do not store or expose personal info beyond what the user supplied.\n• Return ONLY the JSON object, no other text."

/-- Content of `backend/templates/base-prompt.txt` as returned by
`get_base_prompt`, written as the decomposition around its two placeholders
(`basePromptPre ++ "\x7baddress\x7d" ++ basePromptMid ++
"\x7bconfigurable_rules\x7d" ++ basePromptPost` is the file text verbatim). -/
def base_prompt : String :=
  basePromptPre ++ phAddress ++ basePromptMid ++ phRules ++ basePromptPost

/-- One entry of `validation.provinceConfig.list` in a country rules file. -/
structure ProvinceEntry where
  name : String
  code : String
deriving DecidableEq

/-- One entry of `validation.postalCode.ranges` in a country rules file. -/
structure PostalRange where
  min : Nat
  max : Nat
  context : String
deriving DecidableEq

/-- One entry of `referenceGeocodes` in a country rules file.  The latitude
and longitude are kept as their decimal source text: the configuration code
only ever prints them back into the prompt, so no floating-point model is
needed (Python round-trips these literals exactly). -/
structure RefGeocode where
  city : String
  lat : String
  lon : String
deriving DecidableEq

/-- The parsed shape of a `templates/country-rules/*.json` document, with the
abbreviation dictionaries kept in insertion order as Python dicts are.  The
coordinate bounds are kept as decimal source text for the same reason as in
`RefGeocode`. -/
structure CountryConfig where
  countryCode : String
  countryName : String
  streetAbbreviations : List (String × String)
  cityAbbreviations : List (String × String)
  otherAbbreviations : List (String × String)
  provinceType : String
  provinceList : List ProvinceEntry
  postalFormatRegex : String
  postalRanges : List PostalRange
  postalMaxLength : Nat
  minLat : String
  maxLat : String
  minLon : String
  maxLon : String
  zoneIdRegex : String
  referenceGeocodes : List RefGeocode
deriving DecidableEq

/-- The content of `backend/templates/country-rules/south-africa.json`. -/
def south_africa_config : CountryConfig where
  countryCode := "ZA"
  countryName := "South Africa"
  streetAbbreviations :=
    [("St", "Street"), ("Str", "Street"), ("Rd", "Road"), ("Ave", "Avenue"),
     ("Av", "Avenue"), ("Dr", "Drive"), ("Ln", "Lane"), ("Ct", "Court"),
     ("Pl", "Place"), ("Blvd", "Boulevard"), ("Cres", "Crescent")]
  cityAbbreviations :=
    [("JHB", "Johannesburg"), ("PTA", "Pretoria"), ("CPT", "Cape Town"),
     ("DBN", "Durban"), ("PE", "Port Elizabeth")]
  otherAbbreviations :=
    [("PO Box", "Post Office Box"), ("Apt", "Apartment"), ("Bldg", "Building"),
     ("Fl", "Floor"), ("Ste", "Suite")]
  provinceType := "MANDATORY_LIST"
  provinceList :=
    [⟨"Eastern Cape", "EC"⟩, ⟨"Free State", "FS"⟩, ⟨"Gauteng", "GP"⟩,
     ⟨"KwaZulu-Natal", "KZN"⟩, ⟨"Limpopo", "LP"⟩, ⟨"Mpumalanga", "MP"⟩,
     ⟨"Northern Cape", "NC"⟩, ⟨"North West", "NW"⟩, ⟨"Western Cape", "WC"⟩]
  postalFormatRegex := "^\\d\x7b4\x7d$"
  postalRanges :=
    [⟨4700, 6499, "EC"⟩, ⟨9300, 9999, "FS"⟩, ⟨1400, 1999, "GP"⟩,
     ⟨2000, 2199, "GP"⟩, ⟨2900, 4730, "KZN"⟩, ⟨600, 999, "LP"⟩,
     ⟨1000, 1399, "MP"⟩, ⟨2200, 2499, "MP"⟩, ⟨8300, 8999, "NC"⟩,
     ⟨2500, 2899, "NW"⟩, ⟨6500, 8299, "WC"⟩, ⟨7000, 8099, "WC"⟩]
  postalMaxLength := 4
  minLat := "-34.83"
  maxLat := "-22.13"
  minLon := "16.45"
  maxLon := "32.89"
  zoneIdRegex := "^(AGSUB\\d\x7b11\x7d|ZISA\\d\x7b12\x7d)$"
  referenceGeocodes :=
    [⟨"Cape Town", "-33.9249", "18.4241"⟩, ⟨"Johannesburg", "-26.2041", "28.0473"⟩,
     ⟨"Durban", "-29.8587", "31.0218"⟩, ⟨"Pretoria", "-25.7479", "28.2293"⟩,
     ⟨"Port Elizabeth", "-33.9608", "25.6022"⟩, ⟨"Bloemfontein", "-29.0852", "26.1596"⟩,
     ⟨"East London", "-33.0153", "27.9116"⟩, ⟨"Polokwane", "-23.9045", "29.4686"⟩,
     ⟨"Kimberley", "-28.7323", "24.7622"⟩, ⟨"Margate", "-30.8631", "30.3686"⟩]

/-- Python `sep.join(lines)`. -/
def pyJoin (sep : String) : List String → String
  | [] => ""
  | [a] => a
  | a :: b :: rest => a ++ sep ++ pyJoin sep (b :: rest)

/-- Helper of `format_config_for_prompt`: renders one abbreviation dictionary
as `"    Abbr → Full"` lines in insertion order. -/
def formatAbbrevLines (m : List (String × String)) : List String :=
  m.map (fun p => "    " ++ p.1 ++ " → " ++ p.2)

/-- Embedding of `country_config.format_config_for_prompt`.  The optional
section checks (`if 'normalization' in config` and so on) are modelled as
always present, which is the shape every document of the schema in this
repository has. -/
def format_config_for_prompt (config : CountryConfig) : String :=
  let lines : List String :=
    ["Country: " ++ config.countryName ++ " (" ++ config.countryCode ++ ")", ""]
    ++ ["NORMALIZATION RULES:", "  Street Abbreviations:"]
    ++ formatAbbrevLines config.streetAbbreviations
    ++ ["  City Abbreviations:"]
    ++ formatAbbrevLines config.cityAbbreviations
    ++ ["  Other Abbreviations:"]
    ++ formatAbbrevLines config.otherAbbreviations
    ++ [""]
    ++ ["VALIDATION RULES:",
        "  Province/State Configuration: " ++ config.provinceType,
        "  Valid Provinces/States:"]
    ++ config.provinceList.map (fun p => "    • " ++ p.name ++ " (" ++ p.code ++ ")")
    ++ ["  Postal Code Format: " ++ config.postalFormatRegex,
        "  Postal Code Max Length: " ++ toString config.postalMaxLength,
        "  Postal Code Ranges:"]
    ++ config.postalRanges.map
        (fun r => "    • " ++ toString r.min ++ "-" ++ toString r.max ++ " (" ++ r.context ++ ")")
    ++ ["  Coordinate Bounds: Lat [" ++ config.minLat ++ ", " ++ config.maxLat
          ++ "], Lon [" ++ config.minLon ++ ", " ++ config.maxLon ++ "]",
        "  Zone ID Regex: " ++ config.zoneIdRegex,
        ""]
    ++ ["REFERENCE GEOCODES:"]
    ++ config.referenceGeocodes.map (fun g => "  • " ++ g.city ++ ": " ++ g.lat ++ ", " ++ g.lon)
  pyJoin "\n" lines

/-- Result of opening and JSON-parsing one country-rules file: the file can be
missing, present but unparsable (with the decoder's message), or parsed. -/
inductive FileState where
  | absent : FileState
  | malformed : String → FileState
  | parsed : CountryConfig → FileState

/-- The exceptions `load_country_config` can raise: `FileNotFoundError` for a
missing file and `ValueError` for invalid JSON, each keyed here by the
normalized slug whose file was being read (the `os.path` assembly of the full
file path is abstracted away). -/
inductive LoadError where
  | notFound : String → LoadError
  | parseError : String → String → LoadError
deriving DecidableEq

/-- The warning printed by the fallback branch of `load_country_config`. -/
def fallbackWarning (country_name : String) : String :=
  "Warning: Country config not found for " ++ country_name ++ ", falling back to south-africa"

/-- Embedding of `country_config.load_country_config` over a file system
`fs` mapping each slug to the state of `templates/country-rules/{slug}.json`.
A successful load also returns the list of warnings printed on the way (the
source prints them with `print`).  A missing file for a non-default slug falls
back to the recursive call on `"south-africa"` exactly as the source does. -/
def load_country_config (fs : String → FileState) (country_name : String) :
    Except LoadError (CountryConfig × List String) :=
  match fs (normalize_country_name country_name) with
  | FileState.parsed cfg => Except.ok (cfg, [])
  | FileState.malformed msg =>
      Except.error (LoadError.parseError (normalize_country_name country_name) msg)
  | FileState.absent =>
      if hdef : normalize_country_name country_name = "south-africa" then
        Except.error (LoadError.notFound (normalize_country_name country_name))
      else
        match load_country_config fs "south-africa" with
        | Except.ok (cfg, log) => Except.ok (cfg, fallbackWarning country_name :: log)
        | Except.error e => Except.error e
termination_by (if normalize_country_name country_name = "south-africa" then 0 else 1)
decreasing_by
  have hsa : normalize_country_name "south-africa" = "south-africa" := by decide
  simp [hsa, hdef]

/-- Python truthiness of `country_name or "south-africa"` in
`build_final_prompt`: both `None` and the empty string fall to the default. -/
def countryOrDefault : Option String → String
  | none => "south-africa"
  | some s => if s = "" then "south-africa" else s

/-- Embedding of `country_config.build_final_prompt`: load the base prompt
(the constant `base_prompt`), load the country config, format it, then replace
`\x7baddress\x7d` and afterwards `\x7bconfigurable_rules\x7d` with Python
`str.replace`.  A load failure propagates as the raised exception does. -/
def build_final_prompt (fs : String → FileState) (address : String)
    (country_name : Option String) : Except LoadError (String × List String) :=
  match load_country_config fs (countryOrDefault country_name) with
  | Except.error e => Except.error e
  | Except.ok (cfg, log) =>
      Except.ok
        (pyReplace (pyReplace base_prompt phAddress address) phRules
          (format_config_for_prompt cfg), log)

/-- The deployed file system of the repository: exactly one country-rules
file, `south-africa.json`, with the content embedded above. -/
def fsSouthAfricaOnly : String → FileState := fun nm =>
  if nm = "south-africa" then FileState.parsed south_africa_config else FileState.absent

/-- The four confidence bands of the output schema. -/
inductive Level where
  | High : Level
  | Medium : Level
  | Low : Level
  | Unusable : Level
deriving DecidableEq

/-- Modelled from the spec: the `ValidationResultProcessor.band` function is
not under `src/` (only its thresholds appear, in the base prompt's scoring
section and in the frontend's score-threshold styling); per spec §4.3 it maps
90–100 to High, 70–89 to Medium, 50–69 to Low and everything else to
Unusable, with scores above 100 falling into the first branch and negative
scores into the last (clamping). -/
def band (score : Int) : Level :=
  if 90 ≤ score then Level.High
  else if 70 ≤ score then Level.Medium
  else if 50 ≤ score then Level.Low
  else Level.Unusable

/-- The badge-style classifier `getStatusBadge` of
`frontend/src/App.jsx` (lines 359–364): the frontend re-derives the visual
tier from the numeric score with the same thresholds as `band`. -/
def getStatusBadge (confidence_score : Int) : String :=
  if 90 ≤ confidence_score then "bg-green-50 text-green-700 border border-green-200"
  else if 70 ≤ confidence_score then "bg-blue-50 text-blue-700 border border-blue-200"
  else if 50 ≤ confidence_score then "bg-amber-50 text-amber-700 border border-amber-200"
  else "bg-red-50 text-red-700 border border-red-200"

/-- The two completeness values of the output schema. -/
inductive Completeness where
  | Complete : Completeness
  | Incomplete : Completeness
deriving DecidableEq

/-- The fixed 9-key `fields` object of the oracle output schema.  Latitude and
longitude are kept as rationals (they take no part in the claims). -/
structure OracleFields where
  streetNumber : Option Int
  streetName : Option String
  suburb : Option String
  city : Option String
  province : Option String
  postalCode : Option String
  latitude : Option ℚ
  longitude : Option ℚ
  zoneId : Option String
deriving DecidableEq

/-- A schema-conformant oracle response: normalized address, fields object,
self-declared completeness, numeric score with self-reported band, issues and
recommended fixes. -/
structure OracleOutput where
  normalizedAddress : String
  fields : OracleFields
  completeness : Completeness
  score : Int
  band : Level
  issues : List String
  recommendedFixes : List String
deriving DecidableEq

/-- The final validation result produced from an oracle response. -/
structure ValidationResult where
  normalized_address : String
  fields : OracleFields
  confidence_score : Int
  confidence_level : Level
  completeness : Completeness
  issues : List String
  suggestions : List String
deriving DecidableEq

/-- Display name of a band, as it appears in the output schema. -/
def levelName : Level → String
  | Level.High => "High"
  | Level.Medium => "Medium"
  | Level.Low => "Low"
  | Level.Unusable => "Unusable"

/-- Modelled from the spec: the data-quality flag appended when the oracle's
self-reported band disagrees with the recomputed one (spec §4.3); the concrete
wording is not in `src/`, so a canonical message is used. -/
def bandMismatchIssue (reported recomputed : Level) : String :=
  "Data quality: oracle-reported band " ++ levelName reported
    ++ " disagrees with recomputed band " ++ levelName recomputed

/-- Modelled from the spec: `ValidationResultProcessor.completeness`
(spec §4.3) — Complete iff street, city and province are all non-null and the
band is High or Medium; it takes only the fields and the recomputed band, so
the oracle-declared completeness value cannot influence it. -/
def completeness_of (f : OracleFields) (b : Level) : Completeness :=
  if f.streetName.isSome ∧ f.city.isSome ∧ f.province.isSome
      ∧ (b = Level.High ∨ b = Level.Medium) then
    Completeness.Complete
  else Completeness.Incomplete

/-- Modelled from the spec: the deterministic post-processing of a validated
oracle response into a `ValidationResult` (spec §4.3, `ValidationResultProcessor`:
not under `src/`).  The confidence level is recomputed with `band` from the
numeric score; a disagreement with the oracle's self-reported band appends a
data-quality flag to the issues; completeness is re-derived from the fields
and the recomputed band. -/
def process_oracle_output (o : OracleOutput) : ValidationResult :=
  let lvl := band o.score
  { normalized_address := o.normalizedAddress
    fields := o.fields
    confidence_score := o.score
    confidence_level := lvl
    completeness := completeness_of o.fields lvl
    issues := o.issues ++ (if o.band ≠ lvl then [bandMismatchIssue o.band lvl] else [])
    suggestions := o.recommendedFixes }

/-- Outcome recorded for one batch row: a per-row failure is captured as data
and does not abort the job (spec §4.4 and §7). -/
inductive RowResult where
  | success : ValidationResult → RowResult
  | failed : String → RowResult
deriving DecidableEq

/-- Batch job lifecycle states (spec §4.4). -/
inductive JobStatus where
  | pending : JobStatus
  | processing : JobStatus
  | complete : JobStatus
  | failed : JobStatus
deriving DecidableEq

/-- Modelled from the spec: the `BatchJob` record of §3 (the backend
`BatchJobManager` is not under `src/`; the frontend poller in
`src/unnamed/part_001` only reads it). -/
structure BatchJob where
  status : JobStatus
  total : Nat
  processed_count : Nat
  results : List RowResult
deriving DecidableEq

/-- Modelled from the spec: `BatchJobManager.submit` (spec §4.4) — an empty
batch is a job-level precondition failure and the job never processes rows;
otherwise the job is created `pending` with `total` set and nothing
processed. -/
def submitJob (n : Nat) : BatchJob :=
  if n = 0 then ⟨JobStatus.failed, 0, 0, []⟩ else ⟨JobStatus.pending, n, 0, []⟩

/-- Modelled from the spec: committing one row outcome under the single-writer
discipline of §5 — the result is appended in input order, the processed count
is incremented, and the job becomes `complete` exactly when every row has a
terminal outcome. -/
def stepJob (j : BatchJob) (o : RowResult) : BatchJob :=
  { status := if j.processed_count + 1 = j.total then JobStatus.complete else JobStatus.processing
    total := j.total
    processed_count := j.processed_count + 1
    results := j.results ++ [o] }

/-- The sequence of job states observed by `status()` polling while the
outcomes are committed one by one, starting from `j`. -/
def jobTrace (j : BatchJob) : List RowResult → List BatchJob
  | [] => [j]
  | o :: rest => j :: jobTrace (stepJob j o) rest

/-- All states of a batch run over the given per-row outcomes. -/
def runJob (outcomes : List RowResult) : List BatchJob :=
  jobTrace (submitJob outcomes.length) outcomes

/-- The final committed state of a batch run. -/
def runFinal (outcomes : List RowResult) : BatchJob :=
  outcomes.foldl stepJob (submitJob outcomes.length)

/-- The `progress_percentage = processed_count / total × 100` field of the
batch-status response (spec §4.4), as an exact rational. -/
def progress_percentage (j : BatchJob) : ℚ :=
  (j.processed_count : ℚ) / (j.total : ℚ) * 100

/-- The two confirmation trigger channels. -/
inductive ActionType where
  | call : ActionType
  | whatsapp : ActionType
deriving DecidableEq

/-- Confirmation record states after a trigger exists (spec §4.5);
`untriggered` is represented by the absence of a record. -/
inductive ConfStatus where
  | triggered : ConfStatus
  | confirmed : ConfStatus
deriving DecidableEq

/-- Modelled from the spec: one confirmation record, keyed by its reference
(spec §3 `ConfirmationRecord`; the backend `ConfirmationTracker` is not under
`src/`, only the trigger-agent POST in `src/frontend/src/App.jsx`). -/
structure ConfRecord where
  ref : Nat
  status : ConfStatus
deriving DecidableEq

/-- Modelled from the spec: the confirmation tracker's store — a fresh-
reference counter plus the records keyed by (result id, action type). -/
structure Tracker where
  nextRef : Nat
  records : List ((String × ActionType) × ConfRecord)
deriving DecidableEq

/-- First record stored under a key, if any. -/
def findRec (key : String × ActionType) :
    List ((String × ActionType) × ConfRecord) → Option ConfRecord
  | [] => none
  | (k, v) :: rest => if k = key then some v else findRec key rest

/-- Modelled from the spec: `ConfirmationTracker.trigger` (spec §4.5) — if a
record for this (result, actionType) pair exists and is still `triggered`, its
reference is returned and nothing is created; otherwise a fresh reference is
minted and a new `triggered` record stored. -/
def trigger (st : Tracker) (rid : String) (a : ActionType) : Nat × Tracker :=
  match findRec (rid, a) st.records with
  | some rec =>
      if rec.status = ConfStatus.triggered then (rec.ref, st)
      else
        (st.nextRef,
         ⟨st.nextRef + 1, ((rid, a), ⟨st.nextRef, ConfStatus.triggered⟩) :: st.records⟩)
  | none =>
      (st.nextRef,
       ⟨st.nextRef + 1, ((rid, a), ⟨st.nextRef, ConfStatus.triggered⟩) :: st.records⟩)

/-- A file system whose default country file is present but malformed and
whose other files are absent; exhibits the failure of unconditional default
fallback. -/
def fsMalformedDefault : String → FileState := fun nm =>
  if nm = "south-africa" then FileState.malformed "Expecting value: line 1 column 1 (char 0)"
  else FileState.absent

/-- A concrete fields object used by witnesses. -/
def demoFields : OracleFields where
  streetNumber := some 123
  streetName := some "Main Street"
  suburb := some "Gardens"
  city := some "Cape Town"
  province := some "Western Cape"
  postalCode := some "8001"
  latitude := some (-339249/10000 : ℚ)
  longitude := some (184241/10000 : ℚ)
  zoneId := none

/-- A concrete oracle response whose self-reported band disagrees with the
band recomputed from its score, used by witnesses. -/
def demoOracle : OracleOutput where
  normalizedAddress := "123 Main Street, Cape Town, Western Cape, 8001"
  fields := demoFields
  completeness := Completeness.Complete
  score := 95
  band := Level.Low
  issues := ["sample issue"]
  recommendedFixes := ["sample fix"]

/-- Concrete per-row outcomes (every row failed) used by the batch witness. -/
def demoOutcomes : List RowResult :=
  [RowResult.failed "oracle timeout", RowResult.failed "schema error"]

/-! String-scanning lemmas about `leadsWith`, `occursIn` and `goRepl`. -/

theorem occursIn_eq_occursInR (pat : List Char) : ∀ s, occursIn pat s = occursInR pat s
  | [] => rfl
  | _ :: rest => by
      rw [occursIn, occursInR]
      rw [occursIn_eq_occursInR pat rest]
      rfl

theorem leadsWith_iff : ∀ (pat s : List Char), leadsWith pat s = true ↔ ∃ t, s = pat ++ t
  | [], s => by simp [leadsWith]
  | _ :: _, [] => by simp [leadsWith]
  | a :: as, b :: bs => by
      rw [leadsWith, Bool.and_eq_true, beq_iff_eq, leadsWith_iff as bs]
      constructor
      · rintro ⟨rfl, t, rfl⟩
        exact ⟨t, rfl⟩
      · rintro ⟨t, ht⟩
        rw [List.cons_append] at ht
        obtain ⟨h1, h2⟩ := List.cons.injEq .. ▸ ht
        exact ⟨h1.symm ▸ rfl, t, h2⟩

theorem leadsWith_self (l t : List Char) : leadsWith l (l ++ t) = true :=
  (leadsWith_iff l (l ++ t)).mpr ⟨t, rfl⟩

theorem occursIn_iff : ∀ (pat s : List Char),
    occursIn pat s = true ↔ ∃ a b, s = a ++ pat ++ b
  | pat, [] => by
      rw [occursIn, leadsWith_iff]
      constructor
      · rintro ⟨t, ht⟩
        exact ⟨[], t, ht⟩
      · rintro ⟨a, b, hab⟩
        rcases List.append_eq_nil.mp (List.append_assoc a pat b ▸ hab.symm) with ⟨ha, hb⟩
        rcases List.append_eq_nil.mp hb with ⟨hp, hb'⟩
        exact ⟨[], by simp [hp]⟩
  | pat, c :: rest => by
      rw [occursIn, Bool.or_eq_true, leadsWith_iff, occursIn_iff pat rest]
      constructor
      · rintro (⟨t, ht⟩ | ⟨a, b, hab⟩)
        · exact ⟨[], t, by simpa using ht⟩
        · exact ⟨c :: a, b, by simp [hab]⟩
      · rintro ⟨a, b, hab⟩
        cases a with
        | nil => exact Or.inl ⟨b, by simpa using hab⟩
        | cons a0 a' =>
            right
            rw [List.cons_append, List.cons_append] at hab
            obtain ⟨-, h2⟩ := List.cons.injEq .. ▸ hab
            exact ⟨a', b, by simpa using h2⟩

theorem goRepl_skip (old new : List Char) :
    ∀ (a t : List Char), goRepl old new (a ++ t) a.length = goRepl old new t 0
  | [], _ => rfl
  | c :: a', t => by
      rw [List.cons_append, List.length_cons, goRepl]
      exact goRepl_skip old new a' t

theorem goRepl_no_occur (old new : List Char) :
    ∀ (s : List Char), occursIn old s = false → goRepl old new s 0 = s
  | [], _ => rfl
  | c :: rest, h => by
      rw [occursIn, Bool.or_eq_false_iff] at h
      rw [goRepl, if_neg (by simp [h.1])]
      rw [goRepl_no_occur old new rest h.2]

theorem goRepl_match (new : List Char) {old : List Char} (hne : old ≠ [])
    (t : List Char) : goRepl old new (old ++ t) 0 = new ++ goRepl old new t 0 := by
  cases old with
  | nil => exact absurd rfl hne
  | cons o os =>
      rw [List.cons_append, goRepl, if_pos (by simpa using leadsWith_self (o :: os) t)]
      have : (o :: os).length - 1 = os.length := by simp
      rw [this, goRepl_skip]

theorem goRepl_skip_block (new : List Char) {old : List Char} (hne : old ≠ []) :
    ∀ (s1 t : List Char), (∀ c ∈ s1, old.head? ≠ some c) →
      goRepl old new (s1 ++ t) 0 = s1 ++ goRepl old new t 0
  | [], _, _ => by simp
  | c :: s1', t, hno => by
      cases old with
      | nil => exact absurd rfl hne
      | cons o os =>
          have hoc : (o == c) = false := by
            have := hno c (List.mem_cons_self c s1')
            simp only [List.head?] at this
            simpa using fun h => this (by rw [h])
          rw [List.cons_append, goRepl, if_neg (by simp [leadsWith, hoc])]
          rw [goRepl_skip_block new hne s1' t (fun d hd => hno d (List.mem_cons_of_mem c hd))]
          rfl

theorem leadsWith_append_cases :
    ∀ (old a t : List Char), leadsWith old (a ++ t) = true →
      leadsWith old a = true ∨ (a.length < old.length ∧ leadsWith (old.drop a.length) t = true)
  | old, [], t, h => by
      cases old with
      | nil => exact Or.inl rfl
      | cons o os => exact Or.inr ⟨by simp, by simpa using h⟩
  | old, c :: a', t, h => by
      cases old with
      | nil => exact Or.inl rfl
      | cons o os =>
          rw [List.cons_append, leadsWith, Bool.and_eq_true] at h
          rcases leadsWith_append_cases os a' t h.2 with h' | ⟨hlen, hdrop⟩
          · exact Or.inl (by rw [leadsWith, Bool.and_eq_true]; exact ⟨h.1, h'⟩)
          · exact Or.inr ⟨by simpa using Nat.succ_lt_succ hlen, by simpa using hdrop⟩

theorem goRepl_clean_block (new : List Char) {old : List Char} (hne : old ≠ []) :
    ∀ (a t : List Char), occursIn old a = false → (∀ d ∈ old, t.head? ≠ some d) →
      goRepl old new (a ++ t) 0 = a ++ goRepl old new t 0
  | [], _, _, _ => by simp
  | c :: a', t, hocc, hhd => by
      rw [occursIn, Bool.or_eq_false_iff] at hocc
      have hlw : leadsWith old ((c :: a') ++ t) = false := by
        cases hclaim : leadsWith old ((c :: a') ++ t) with
        | false => rfl
        | true =>
            exfalso
            rcases leadsWith_append_cases old (c :: a') t hclaim with h' | ⟨hlen, hdrop⟩
            · exact absurd h' (by simp [hocc.1])
            · have hd : old.drop (c :: a').length ≠ [] := by
                intro hd0
                have := congrArg List.length hd0
                simp only [List.length_drop, List.length_nil] at this
                omega
              cases hrem : old.drop (c :: a').length with
              | nil => exact hd hrem
              | cons d ds =>
                  rw [hrem] at hdrop
                  cases t with
                  | nil => simp [leadsWith] at hdrop
                  | cons e ts =>
                      rw [leadsWith, Bool.and_eq_true, beq_iff_eq] at hdrop
                      have hdm : d ∈ old :=
                        List.drop_subset (c :: a').length old (hrem ▸ List.mem_cons_self d ds)
                      exact hhd d hdm (by simp [hdrop.1])
      rw [List.cons_append, goRepl, if_neg (by simpa using hlw)]
      rw [goRepl_clean_block new hne a' t hocc.2 hhd]
      rfl

theorem strEq {a b : String} (h : a.data = b.data) : a = b := by
  cases a
  cases b
  exact congrArg String.mk h

theorem pyReplaceL_ne {old : List Char} (new s : List Char) (hne : old ≠ []) :
    pyReplaceL old new s = goRepl old new s 0 := by
  cases old with
  | nil => exact absurd rfl hne
  | cons o os => rfl

theorem head?_append_of_cons {a : List Char} (b : List Char) {c : Char}
    (h : a.head? = some c) : (a ++ b).head? = some c := by
  cases a with
  | nil => simp at h
  | cons x xs => simpa using h

/-! Concrete facts about the base prompt template, established by direct
evaluation. -/

theorem phAddress_ne_nil : phAddress.data ≠ [] := by decide

theorem phRules_ne_nil : phRules.data ≠ [] := by decide

theorem phAddress_head : phAddress.data.head? = some '{' := by decide

theorem phRules_head : phRules.data.head? = some '{' := by decide

theorem brace_not_mem_pre : '{' ∉ basePromptPre.data := by decide

theorem brace_not_mem_mid : '{' ∉ basePromptMid.data := by decide

theorem newline_not_mem_phRules : '\n' ∉ phRules.data := by decide

theorem mid_head : basePromptMid.data.head? = some '\n' := by decide

theorem phAddress_not_in_rest :
    occursIn phAddress.data (basePromptMid.data ++ (phRules.data ++ basePromptPost.data)) = false := by
  rw [occursIn_eq_occursInR]
  decide

theorem phRules_not_in_post : occursIn phRules.data basePromptPost.data = false := by
  rw [occursIn_eq_occursInR]
  decide

theorem base_prompt_data :
    base_prompt.data
      = basePromptPre.data ++ (phAddress.data ++ (basePromptMid.data
          ++ (phRules.data ++ basePromptPost.data))) := by
  simp [base_prompt, String.data_append, List.append_assoc]

/-- Block-free guard for a pattern starting with `'{'` over a brace-free
segment. -/
theorem no_head_hit {pat seg : List Char} (hhead : pat.head? = some '{')
    (hfree : '{' ∉ seg) : ∀ c ∈ seg, pat.head? ≠ some c := by
  intro c hc heq
  rw [hhead] at heq
  exact hfree ((Option.some.inj heq) ▸ hc)

/-- The two-step placeholder substitution of `build_final_prompt`, evaluated
for any address that does not contain the second placeholder: exactly the
address text and the rules block are interpolated, at their two points. -/
theorem pyReplace_two_point (config_rules address : String)
    (h : occursIn phRules.data address.data = false) :
    pyReplace (pyReplace base_prompt phAddress address) phRules config_rules
      = basePromptPre ++ address ++ basePromptMid ++ config_rules ++ basePromptPost := by
  apply strEq
  show pyReplaceL phRules.data config_rules.data
      (pyReplaceL phAddress.data address.data base_prompt.data)
    = (basePromptPre ++ address ++ basePromptMid ++ config_rules ++ basePromptPost).data
  have hfirst : pyReplaceL phAddress.data address.data base_prompt.data
      = basePromptPre.data ++ (address.data ++ (basePromptMid.data
          ++ (phRules.data ++ basePromptPost.data))) := by
    rw [base_prompt_data, pyReplaceL_ne _ _ phAddress_ne_nil,
      goRepl_skip_block _ phAddress_ne_nil _ _ (no_head_hit phAddress_head brace_not_mem_pre),
      goRepl_match _ phAddress_ne_nil,
      goRepl_no_occur _ _ _ phAddress_not_in_rest]
  rw [hfirst, pyReplaceL_ne _ _ phRules_ne_nil,
    goRepl_skip_block _ phRules_ne_nil _ _ (no_head_hit phRules_head brace_not_mem_pre),
    goRepl_clean_block _ phRules_ne_nil _ _ h
      (by
        intro d hd heq
        rw [head?_append_of_cons _ mid_head] at heq
        exact newline_not_mem_phRules ((Option.some.inj heq) ▸ hd)),
    goRepl_skip_block _ phRules_ne_nil _ _ (no_head_hit phRules_head brace_not_mem_mid),
    goRepl_match _ phRules_ne_nil,
    goRepl_no_occur _ _ _ phRules_not_in_post]
  simp [String.data_append, List.append_assoc]

theorem pyJoin_two_head (sep a b : String) (rest : List String) {c : Char}
    (h : a.data.head? = some c) : (pyJoin sep (a :: b :: rest)).data.head? = some c := by
  show (a ++ sep ++ pyJoin sep (b :: rest)).data.head? = some c
  rw [String.data_append, String.data_append]
  exact head?_append_of_cons _ (head?_append_of_cons _ h)

/-- Every rendered constraint block starts with the `Country:` header, so it
can never equal the placeholder string, whatever the config contents. -/
theorem format_head (cfg : CountryConfig) :
    (format_config_for_prompt cfg).data.head? = some 'C' := by
  have ha : ("Country: " ++ cfg.countryName ++ " (" ++ cfg.countryCode ++ ")").data.head?
      = some 'C' := by
    simp only [String.data_append]
    exact head?_append_of_cons _
      (head?_append_of_cons _ (head?_append_of_cons _ (head?_append_of_cons _ (by decide))))
  exact pyJoin_two_head _ _ _ _ ha

theorem normalize_sa : normalize_country_name "south-africa" = "south-africa" := by decide

/-- Loading the default slug against the deployed file system yields the South
Africa config with no warnings. -/
theorem load_sa :
    load_country_config fsSouthAfricaOnly "south-africa"
      = Except.ok (south_africa_config, []) := by
  rw [load_country_config, normalize_sa]
  simp [fsSouthAfricaOnly]

/-- Claim C4, amended.  For every rendered constraint block and every address
text that does not contain the placeholder `\x7bconfigurable_rules\x7d`, the
assembled request is exactly the fixed template with the address substituted
at the `\x7baddress\x7d` point and the constraint block at the
`\x7bconfigurable_rules\x7d` point, and nothing else rewritten; the same holds
for the full `build_final_prompt` pipeline over the deployed file system.  The
restriction on the address is forced by `claim_C4_counterexample`: the
source's second `str.replace` pass also rewrites a placeholder occurrence
that arrived inside the address text. -/
theorem claim_C4_two_point_substitution :
    (∀ config_rules address : String, occursIn phRules.data address.data = false →
      pyReplace (pyReplace base_prompt phAddress address) phRules config_rules
        = basePromptPre ++ address ++ basePromptMid ++ config_rules ++ basePromptPost)
    ∧ (∀ address : String, occursIn phRules.data address.data = false →
      build_final_prompt fsSouthAfricaOnly address (some "south-africa")
        = Except.ok (basePromptPre ++ address ++ basePromptMid
            ++ format_config_for_prompt south_africa_config ++ basePromptPost, [])) := by
  refine ⟨fun config_rules address h => pyReplace_two_point config_rules address h, ?_⟩
  intro address h
  have hc : countryOrDefault (some "south-africa") = "south-africa" := by decide
  rw [build_final_prompt, hc, load_sa]
  show Except.ok (pyReplace (pyReplace base_prompt phAddress address) phRules
      (format_config_for_prompt south_africa_config), ([] : List String)) = _
  rw [pyReplace_two_point _ address h]

/-- Claim C4, counterexample to the claim as stated: for the concrete address
text `"\x7bconfigurable_rules\x7d"` the assembled request is NOT the template
with the two point substitutions — the second replacement pass also rewrites
the placeholder occurrence contributed by the address, so the rules block
appears where the address text should stand. -/
theorem claim_C4_counterexample :
    pyReplace (pyReplace base_prompt phAddress phRules) phRules
        (format_config_for_prompt south_africa_config)
      ≠ basePromptPre ++ phRules ++ basePromptMid
          ++ format_config_for_prompt south_africa_config ++ basePromptPost := by
  intro heq
  have hdata := congrArg String.data heq
  have hL : (pyReplace (pyReplace base_prompt phAddress phRules) phRules
      (format_config_for_prompt south_africa_config)).data
      = pyReplaceL phRules.data (format_config_for_prompt south_africa_config).data
          (pyReplaceL phAddress.data phRules.data base_prompt.data) := rfl
  have hfirst : pyReplaceL phAddress.data phRules.data base_prompt.data
      = basePromptPre.data ++ (phRules.data ++ (basePromptMid.data
          ++ (phRules.data ++ basePromptPost.data))) := by
    rw [base_prompt_data, pyReplaceL_ne _ _ phAddress_ne_nil,
      goRepl_skip_block _ phAddress_ne_nil _ _ (no_head_hit phAddress_head brace_not_mem_pre),
      goRepl_match _ phAddress_ne_nil,
      goRepl_no_occur _ _ _ phAddress_not_in_rest]
  rw [hL, hfirst, pyReplaceL_ne _ _ phRules_ne_nil,
    goRepl_skip_block _ phRules_ne_nil _ _ (no_head_hit phRules_head brace_not_mem_pre),
    goRepl_match _ phRules_ne_nil,
    goRepl_skip_block _ phRules_ne_nil _ _ (no_head_hit phRules_head brace_not_mem_mid),
    goRepl_match _ phRules_ne_nil,
    goRepl_no_occur _ _ _ phRules_not_in_post] at hdata
  simp only [String.data_append, List.append_assoc] at hdata
  have h2 := List.append_cancel_right (List.append_cancel_left hdata)
  have hc := format_head south_africa_config
  rw [h2, phRules_head] at hc
  exact absurd hc (by decide)

/-- Claim C4, witness: the amended theorem applied at a concrete ordinary
address and a concrete rules block. -/
theorem claim_C4_witness :
    occursIn phRules.data ("12 Oak Avenue, Cape Town").data = false
    ∧ pyReplace (pyReplace base_prompt phAddress "12 Oak Avenue, Cape Town") phRules "RULES"
        = basePromptPre ++ "12 Oak Avenue, Cape Town" ++ basePromptMid
            ++ "RULES" ++ basePromptPost :=
  ⟨by decide, claim_C4_two_point_substitution.1 "RULES" "12 Oak Avenue, Cape Town" (by decide)⟩

/-! Character-level lemmas for `normalize_country_name`. -/

theorem char_toNat_ofNat {n : Nat} (h : n < 55296) : (Char.ofNat n).toNat = n := by
  have hv : n.isValidChar := Or.inl h
  rw [Char.ofNat, dif_pos hv]
  rfl

theorem char_le_max (c : Char) : c.toNat < 1114112 := by
  rcases c.valid with h | ⟨-, h⟩
  · exact lt_trans h (by norm_num)
  · exact h

theorem lowerChar_idem (c : Char) : lowerChar (lowerChar c) = lowerChar c := by
  by_cases h : 65 ≤ c.toNat ∧ c.toNat ≤ 90
  · have h1 : lowerChar c = Char.ofNat (c.toNat + 32) := by simp [lowerChar, h]
    have ht : (Char.ofNat (c.toNat + 32)).toNat = c.toNat + 32 := char_toNat_ofNat (by omega)
    rw [h1, lowerChar, if_neg (by rw [ht]; omega)]
  · have h1 : lowerChar c = c := by simp [lowerChar, h]
    rw [h1, h1]

theorem lowerChar_eq_special {c d : Char} (hd : d.toNat < 65) (h : lowerChar c = d) :
    c = d := by
  by_cases hc : 65 ≤ c.toNat ∧ c.toNat ≤ 90
  · exfalso
    have h1 : lowerChar c = Char.ofNat (c.toNat + 32) := by simp [lowerChar, hc]
    have ht : (Char.ofNat (c.toNat + 32)).toNat = c.toNat + 32 := char_toNat_ofNat (by omega)
    rw [h1] at h
    have := congrArg Char.toNat h
    rw [ht] at this
    omega
  · rwa [show lowerChar c = c from by simp [lowerChar, hc]] at h

theorem mem_goRepl {old new : List Char} {c : Char} :
    ∀ {s : List Char} {k : Nat}, c ∈ goRepl old new s k → c ∈ new ∨ c ∈ s
  | [], _, h => absurd h (by simp [goRepl])
  | c' :: rest, Nat.succ k, h => by
      rcases mem_goRepl (s := rest) (k := k) h with h' | h'
      · exact Or.inl h'
      · exact Or.inr (List.mem_cons_of_mem c' h')
  | c' :: rest, 0, h => by
      rw [goRepl] at h
      by_cases hl : leadsWith old (c' :: rest) = true
      · rw [if_pos hl] at h
        rcases List.mem_append.mp h with h' | h'
        · exact Or.inl h'
        · rcases mem_goRepl h' with h'' | h''
          · exact Or.inl h''
          · exact Or.inr (List.mem_cons_of_mem c' h'')
      · rw [if_neg hl] at h
        rcases List.mem_cons.mp h with h' | h'
        · exact Or.inr (h' ▸ List.mem_cons_self c' rest)
        · rcases mem_goRepl h' with h'' | h''
          · exact Or.inl h''
          · exact Or.inr (List.mem_cons_of_mem c' h'')

theorem mem_goRepl_single {a b c : Char} :
    ∀ {s : List Char} {k : Nat}, c ∈ goRepl [a] [b] s k → c = b ∨ (c ∈ s ∧ c ≠ a)
  | [], _, h => absurd h (by simp [goRepl])
  | c' :: rest, Nat.succ k, h => by
      rcases mem_goRepl_single (s := rest) (k := k) h with h' | ⟨h1, h2⟩
      · exact Or.inl h'
      · exact Or.inr ⟨List.mem_cons_of_mem c' h1, h2⟩
  | c' :: rest, 0, h => by
      rw [goRepl] at h
      by_cases hl : leadsWith [a] (c' :: rest) = true
      · rw [if_pos hl] at h
        rcases List.mem_append.mp h with h' | h'
        · exact Or.inl (by simpa using h')
        · rcases mem_goRepl_single h' with h'' | ⟨h1, h2⟩
          · exact Or.inl h''
          · exact Or.inr ⟨List.mem_cons_of_mem c' h1, h2⟩
      · rw [if_neg hl] at h
        have hac : ¬(a = c') := by
          intro hac
          exact hl (by simp [leadsWith, hac])
        rcases List.mem_cons.mp h with h' | h'
        · exact Or.inr ⟨h' ▸ List.mem_cons_self c' rest, fun hca => hac (hca.symm.trans h')⟩
        · rcases mem_goRepl_single h' with h'' | ⟨h1, h2⟩
          · exact Or.inl h''
          · exact Or.inr ⟨List.mem_cons_of_mem c' h1, h2⟩

theorem mem_pyReplaceL {old new s : List Char} {c : Char} (h : c ∈ pyReplaceL old new s) :
    c ∈ new ∨ c ∈ s := by
  cases old with
  | nil => exact Or.inr h
  | cons o os => exact mem_goRepl h

theorem mem_pyReplaceL_single {a b c : Char} {s : List Char}
    (h : c ∈ pyReplaceL [a] [b] s) : c = b ∨ (c ∈ s ∧ c ≠ a) :=
  mem_goRepl_single h

theorem mem_collapseGo {c : Char} : ∀ {f : Nat} {s : List Char},
    c ∈ collapseGo f s → c = '-' ∨ c ∈ s
  | 0, _, h => Or.inr h
  | Nat.succ f, s, h => by
      rw [collapseGo] at h
      by_cases ho : occursIn ['-', '-'] s = true
      · rw [if_pos ho] at h
        rcases mem_collapseGo h with h' | h'
        · exact Or.inl h'
        · rcases mem_pyReplaceL h' with h'' | h''
          · exact Or.inl (by simpa using h'')
          · exact Or.inr h''
      · rw [if_neg ho] at h
        exact Or.inr h

theorem mem_dropEdge {p : Char → Bool} {l : List Char} {c : Char}
    (h : c ∈ dropEdge p l) : c ∈ l := by
  rw [dropEdge, List.mem_reverse] at h
  have h1 := (List.dropWhile_sublist _).mem h
  rw [List.mem_reverse] at h1
  exact (List.dropWhile_sublist _).mem h1

theorem occursIn_single {a : Char} : ∀ {s : List Char}, occursIn [a] s = true ↔ a ∈ s
  | [] => by simp [occursIn, leadsWith]
  | c :: rest => by
      rw [occursIn, Bool.or_eq_true, occursIn_single (s := rest)]
      constructor
      · rintro (h | h)
        · rw [leadsWith, Bool.and_eq_true, beq_iff_eq] at h
          exact h.1 ▸ List.mem_cons_self c rest
        · exact List.mem_cons_of_mem c h
      · intro h
        rcases List.mem_cons.mp h with h' | h'
        · exact Or.inl (by simp [leadsWith, h'])
        · exact Or.inr h'

theorem map_id_of {f : Char → Char} : ∀ {l : List Char}, (∀ c ∈ l, f c = c) → l.map f = l
  | [], _ => rfl
  | c :: rest, h => by
      rw [List.map_cons, h c (List.mem_cons_self c rest),
        map_id_of (fun d hd => h d (List.mem_cons_of_mem c hd))]

/-! Length facts for the hyphen-collapsing loop. -/

theorem goRepl_hh_len : ∀ (s : List Char) (k : Nat),
    (goRepl ['-', '-'] ['-'] s k).length ≤ s.length
  | [], _ => by simp [goRepl]
  | c :: rest, Nat.succ k => by
      rw [goRepl]
      exact Nat.le_succ_of_le (goRepl_hh_len rest k)
  | c :: rest, 0 => by
      rw [goRepl]
      by_cases hl : leadsWith ['-', '-'] (c :: rest) = true
      · rw [if_pos hl]
        simpa using Nat.succ_le_succ (goRepl_hh_len rest 1)
      · rw [if_neg hl]
        simpa using Nat.succ_le_succ (goRepl_hh_len rest 0)

theorem goRepl_hh_len_lt : ∀ {s : List Char}, occursIn ['-', '-'] s = true →
    (goRepl ['-', '-'] ['-'] s 0).length < s.length
  | [], h => absurd h (by simp [occursIn, leadsWith])
  | c :: rest, h => by
      rw [goRepl]
      by_cases hl : leadsWith ['-', '-'] (c :: rest) = true
      · rw [if_pos hl]
        rcases (leadsWith_iff _ _).mp hl with ⟨t, ht⟩
        rw [List.cons_append, List.cons_append, List.nil_append] at ht
        obtain ⟨-, hrest⟩ := List.cons.injEq .. ▸ ht
        show (['-'] ++ goRepl ['-', '-'] ['-'] rest 1).length < (c :: rest).length
        have h1 : goRepl ['-', '-'] ['-'] rest 1 = goRepl ['-', '-'] ['-'] t 0 := by
          rw [hrest]
          exact goRepl_skip ['-', '-'] ['-'] ['-'] t
        rw [h1, hrest]
        have h2 := goRepl_hh_len t 0
        simp only [List.length_append, List.length_cons, List.length_nil]
        omega
      · rw [occursIn, Bool.or_eq_true] at h
        rcases h with h' | h'
        · exact absurd h' hl
        · rw [if_neg hl]
          simpa using Nat.succ_lt_succ (goRepl_hh_len_lt h')

theorem collapseGo_no_occ {s : List Char} (h : occursIn ['-', '-'] s = false) :
    ∀ f, collapseGo f s = s
  | 0 => rfl
  | Nat.succ f => by rw [collapseGo, if_neg (by simp [h])]

theorem collapseGo_result : ∀ (f : Nat) (s : List Char), s.length ≤ f →
    occursIn ['-', '-'] (collapseGo f s) = false
  | 0, s, h => by
      have : s = [] := List.length_eq_zero.mp (Nat.le_zero.mp h)
      subst this
      simp [collapseGo, occursIn, leadsWith]
  | Nat.succ f, s, h => by
      rw [collapseGo]
      by_cases ho : occursIn ['-', '-'] s = true
      · rw [if_pos ho]
        refine collapseGo_result f _ ?_
        have hlt : (pyReplaceL ['-', '-'] ['-'] s).length < s.length := by
          rw [pyReplaceL_ne _ _ (by simp)]
          exact goRepl_hh_len_lt ho
        omega
      · rw [if_neg ho]
        simpa using ho

/-! Edge-trimming lemmas. -/

theorem dropWhile_head_false {p : Char → Bool} :
    ∀ {l : List Char} {c : Char} {t : List Char}, l.dropWhile p = c :: t → p c = false
  | [], c, t, h => by simp [List.dropWhile] at h
  | a :: l', c, t, h => by
      rw [List.dropWhile_cons] at h
      by_cases ha : p a = true
      · rw [if_pos ha] at h
        exact dropWhile_head_false h
      · rw [if_neg ha] at h
        obtain ⟨h1, -⟩ := List.cons.injEq .. ▸ h
        rw [← h1]
        simpa using ha

theorem dropWhile_idem (p : Char → Bool) (l : List Char) :
    (l.dropWhile p).dropWhile p = l.dropWhile p := by
  cases h : l.dropWhile p with
  | nil => rfl
  | cons c t =>
      rw [List.dropWhile_cons, dropWhile_head_false h]
      simp

theorem dropWhile_eq_self_of_start {p : Char → Bool} {t m : List Char}
    (ht : t.dropWhile p = t) (hpre : ∃ v, m ++ v = t) : m.dropWhile p = m := by
  cases m with
  | nil => rfl
  | cons c m' =>
      obtain ⟨v, hv⟩ := hpre
      cases t with
      | nil => simp at hv
      | cons c0 t' =>
          rw [List.cons_append] at hv
          obtain ⟨h1, -⟩ := List.cons.injEq .. ▸ hv
          have hc0 : p c0 = false := by
            by_cases hp : p c0 = true
            · exfalso
              rw [List.dropWhile_cons, if_pos hp] at ht
              have := congrArg List.length ht
              have hle : (t'.dropWhile p).length ≤ t'.length := (List.dropWhile_sublist _).length_le
              simp only [List.length_cons] at this
              omega
            · simpa using hp
          rw [List.dropWhile_cons, h1, hc0]
          simp

theorem dropEdge_back_eq (p : Char → Bool) (l : List Char) :
    (dropEdge p l).reverse.dropWhile p = (dropEdge p l).reverse := by
  rw [dropEdge, List.reverse_reverse]
  exact dropWhile_idem p _

theorem dropEdge_front_part (p : Char → Bool) (l : List Char) :
    ∃ v, dropEdge p l ++ v = l.dropWhile p := by
  refine ⟨((l.dropWhile p).reverse.takeWhile p).reverse, ?_⟩
  rw [dropEdge, ← List.reverse_append, List.takeWhile_append_dropWhile, List.reverse_reverse]

theorem dropEdge_idem (p : Char → Bool) (l : List Char) :
    dropEdge p (dropEdge p l) = dropEdge p l := by
  have hfront : (dropEdge p l).dropWhile p = dropEdge p l :=
    dropWhile_eq_self_of_start (dropWhile_idem p l) (dropEdge_front_part p l)
  rw [dropEdge, hfront, dropEdge_back_eq, List.reverse_reverse]

theorem occursIn_dropEdge {pat : List Char} {p : Char → Bool} {l : List Char}
    (h : occursIn pat (dropEdge p l) = true) : occursIn pat l = true := by
  obtain ⟨a, b, hab⟩ := (occursIn_iff _ _).mp h
  obtain ⟨v, hv⟩ := dropEdge_front_part p l
  have hsuf : ∃ u, u ++ (dropEdge p l ++ v) = l := by
    refine ⟨l.takeWhile p, ?_⟩
    rw [hv, List.takeWhile_append_dropWhile]
  obtain ⟨u, hu⟩ := hsuf
  refine (occursIn_iff _ _).mpr ⟨u ++ a, b ++ v, ?_⟩
  rw [← hu, hab]
  simp [List.append_assoc]

theorem occursIn_single_false {a : Char} {s : List Char} (h : a ∉ s) :
    occursIn [a] s = false := by
  cases hb : occursIn [a] s with
  | false => rfl
  | true => exact absurd (occursIn_single.mp hb) h

/-- Every value of the country-code dictionary. -/
theorem lookupCode_vals {k v : String} (h : lookupCode k = some v) :
    v = "south-africa" ∨ v = "united-states" ∨ v = "united-kingdom" := by
  rw [lookupCode] at h
  cases hf : List.find? (fun p => p.1 == k) COUNTRY_CODE_TO_NAME with
  | none => rw [hf] at h; exact absurd h (by simp)
  | some pr =>
      rw [hf] at h
      simp only [Option.some.injEq] at h
      have hmem := List.mem_of_find?_eq_some hf
      simp only [COUNTRY_CODE_TO_NAME, List.mem_cons, List.not_mem_nil, or_false] at hmem
      rcases hmem with rfl | rfl | rfl
      · exact Or.inl h.symm
      · exact Or.inr (Or.inl h.symm)
      · exact Or.inr (Or.inr h.symm)

/-- Structural facts about the output of `normalize_country_name` on its
general (non-empty, non-country-code) path: every character is already
lower-cased and is neither a space nor an underscore, no doubled hyphen
remains, and the hyphen trim is exhausted. -/
theorem normalize_general_props (x : String) (hx : ¬(x = ""))
    (hlc : lookupCode (pyupper (pystrip x)) = none) :
    (∀ c ∈ (normalize_country_name x).data, lowerChar c = c ∧ c ≠ ' ' ∧ c ≠ '_')
    ∧ occursIn ['-', '-'] (normalize_country_name x).data = false
    ∧ stripHyphens (normalize_country_name x) = normalize_country_name x := by
  have hw : normalize_country_name x
      = stripHyphens (collapseHyphens (pyReplace (pyReplace (pylower (pystrip x)) " " "-") "_" "-")) := by
    simp only [normalize_country_name, if_neg hx, hlc]
  have hdata : (normalize_country_name x).data
      = dropEdge (fun c => c == '-')
          ((collapseHyphens (pyReplace (pyReplace (pylower (pystrip x)) " " "-") "_" "-")).data) := by
    rw [hw]
    exact rfl
  have hcoll : ((collapseHyphens (pyReplace (pyReplace (pylower (pystrip x)) " " "-") "_" "-")).data)
      = collapseGo ((pyReplace (pyReplace (pylower (pystrip x)) " " "-") "_" "-").data).length
          ((pyReplace (pyReplace (pylower (pystrip x)) " " "-") "_" "-").data) := rfl
  have hM2 : ((pyReplace (pyReplace (pylower (pystrip x)) " " "-") "_" "-").data)
      = pyReplaceL ['_'] ['-'] ((pyReplace (pylower (pystrip x)) " " "-").data) := rfl
  have hM1 : ((pyReplace (pylower (pystrip x)) " " "-").data)
      = pyReplaceL [' '] ['-'] ((pystrip x).data.map lowerChar) := rfl
  refine ⟨?_, ?_, ?_⟩
  · intro c hc
    rw [hdata] at hc
    have h1 := mem_dropEdge hc
    rw [hcoll] at h1
    rcases mem_collapseGo h1 with hdash | h2
    · subst hdash
      exact ⟨by decide, by decide, by decide⟩
    · rw [hM2] at h2
      rcases mem_pyReplaceL_single h2 with hdash | ⟨h3, hnu⟩
      · subst hdash
        exact ⟨by decide, by decide, by decide⟩
      · rw [hM1] at h3
        rcases mem_pyReplaceL_single h3 with hdash | ⟨h4, hns⟩
        · subst hdash
          exact ⟨by decide, by decide, by decide⟩
        · obtain ⟨d, hd, rfl⟩ := List.mem_map.mp h4
          exact ⟨lowerChar_idem d, hns, hnu⟩
  · have h3 : occursIn ['-', '-']
        ((collapseHyphens (pyReplace (pyReplace (pylower (pystrip x)) " " "-") "_" "-")).data)
        = false := by
      rw [hcoll]
      exact collapseGo_result _ _ le_rfl
    cases hb : occursIn ['-', '-'] (normalize_country_name x).data with
    | false => rfl
    | true =>
        rw [hdata] at hb
        have h4 := occursIn_dropEdge hb
        rw [h3] at h4
        exact absurd h4 (by simp)
  · apply strEq
    show dropEdge (fun c => c == '-') (normalize_country_name x).data
      = (normalize_country_name x).data
    rw [hdata]
    exact dropEdge_idem _ _

/-- A string with the structural properties of a general-path normalization
output is a fixed point of `normalize_country_name`. -/
theorem normalize_fixed_point {w : String} (hne : ¬(w = ""))
    (hstrip : pystrip w = w) (hcode : lookupCode (pyupper w) = none)
    (hchars : ∀ c ∈ w.data, lowerChar c = c ∧ c ≠ ' ' ∧ c ≠ '_')
    (hnodd : occursIn ['-', '-'] w.data = false)
    (hedge : stripHyphens w = w) :
    normalize_country_name w = w := by
  have hi : pylower w = w := strEq (map_id_of (fun c hc => (hchars c hc).1))
  have hii : pyReplace w " " "-" = w := by
    apply strEq
    show pyReplaceL [' '] ['-'] w.data = w.data
    rw [pyReplaceL_ne _ _ (by simp)]
    exact goRepl_no_occur _ _ _
      (occursIn_single_false (fun hmem => (hchars ' ' hmem).2.1 rfl))
  have hiii : pyReplace w "_" "-" = w := by
    apply strEq
    show pyReplaceL ['_'] ['-'] w.data = w.data
    rw [pyReplaceL_ne _ _ (by simp)]
    exact goRepl_no_occur _ _ _
      (occursIn_single_false (fun hmem => (hchars '_' hmem).2.2 rfl))
  have hiv : collapseHyphens w = w := by
    apply strEq
    show collapseGo w.data.length w.data = w.data
    exact collapseGo_no_occ hnodd _
  have hmain : normalize_country_name w
      = stripHyphens (collapseHyphens (pyReplace (pyReplace (pylower w) " " "-") "_" "-")) := by
    simp only [normalize_country_name, if_neg hne, hstrip, hcode]
  rw [hmain, hi, hii, hiii, hiv, hedge]

/-- Claim C7, amended.  `normalize_country_name` is alias-consistent exactly
as claimed, but it is idempotent only on inputs whose normalized form is
non-empty, carries no leading or trailing whitespace, and is not
(case-insensitively) a recognized country code; `claim_C7_counterexample`
shows the unrestricted idempotence fails, because a general-path output can
itself be a country code (for example `"za"`), which the second pass maps to
its canonical slug instead of leaving fixed. -/
theorem claim_C7_normalize_corrected :
    (normalize_country_name "South Africa" = "south-africa"
      ∧ normalize_country_name "south africa" = "south-africa"
      ∧ normalize_country_name "ZA" = "south-africa")
    ∧ (∀ x : String, ¬(normalize_country_name x = "") →
        pystrip (normalize_country_name x) = normalize_country_name x →
        lookupCode (pyupper (normalize_country_name x)) = none →
        normalize_country_name (normalize_country_name x) = normalize_country_name x) := by
  refine ⟨⟨by decide, by decide, by decide⟩, ?_⟩
  intro x hne hstrip hcode
  by_cases hx : x = ""
  · subst hx
    have h0 : normalize_country_name "" = "south-africa" := by decide
    rw [h0]
    exact normalize_sa
  · rcases hlc : lookupCode (pyupper (pystrip x)) with _ | slug
    · obtain ⟨hchars, hnodd, hedge⟩ := normalize_general_props x hx hlc
      exact normalize_fixed_point hne hstrip hcode hchars hnodd hedge
    · have hw : normalize_country_name x = slug := by
        simp only [normalize_country_name, if_neg hx, hlc]
      rcases lookupCode_vals hlc with h1 | h1 | h1 <;> rw [hw, h1]
      · exact normalize_sa
      · decide
      · decide

/-- Claim C7, counterexample to idempotence as claimed: `"za_"` normalizes to
`"za"`, but normalizing `"za"` again yields `"south-africa"` via the
country-code dictionary, so `normalize(normalize("za_")) ≠ normalize("za_")`. -/
theorem claim_C7_counterexample :
    normalize_country_name "za_" = "za"
    ∧ normalize_country_name (normalize_country_name "za_") = "south-africa"
    ∧ normalize_country_name (normalize_country_name "za_") ≠ normalize_country_name "za_" :=
  ⟨by decide, by decide, by decide⟩

/-- Claim C7, witness: the amended idempotence applied to the concrete
country name `"Narnia"`, whose normalization satisfies the three side
conditions. -/
theorem claim_C7_witness :
    ¬(normalize_country_name "Narnia" = "")
    ∧ pystrip (normalize_country_name "Narnia") = normalize_country_name "Narnia"
    ∧ lookupCode (pyupper (normalize_country_name "Narnia")) = none
    ∧ normalize_country_name (normalize_country_name "Narnia") = normalize_country_name "Narnia" :=
  ⟨by decide, by decide, by decide,
    claim_C7_normalize_corrected.2 "Narnia" (by decide) (by decide) (by decide)⟩

/-- Claim C5, amended.  When the default country file is present AND
parseable, loading the default slug succeeds with no warning, and loading any
slug whose own file is absent falls back to the default config with exactly
the fallback warning logged — without raising.  The parseability condition is
forced by `claim_C5_counterexample`: a present-but-malformed default file
makes both the default load and the fallback raise a parse error. -/
theorem claim_C5_fallback_corrected :
    ∀ (fs : String → FileState) (cfg : CountryConfig) (name : String),
      fs "south-africa" = FileState.parsed cfg →
      (load_country_config fs "south-africa" = Except.ok (cfg, [])
        ∧ (fs (normalize_country_name name) = FileState.absent →
            load_country_config fs name = Except.ok (cfg, [fallbackWarning name]))) := by
  intro fs cfg name hdef
  have hsa : load_country_config fs "south-africa" = Except.ok (cfg, []) := by
    rw [load_country_config, normalize_sa, hdef]
  refine ⟨hsa, ?_⟩
  intro habs
  by_cases hn : normalize_country_name name = "south-africa"
  · rw [hn, hdef] at habs
    exact absurd habs (by simp)
  · rw [load_country_config, habs]
    simp [hn, hsa]

/-- Claim C5, counterexample to the claim as stated: with the default file
present but malformed and every other file absent, the request for the absent
slug `"mars"` does not return the default config without raising — the
fallback load surfaces a parse error — although the default file is present. -/
theorem claim_C5_counterexample :
    fsMalformedDefault "mars" = FileState.absent
    ∧ ¬(fsMalformedDefault "south-africa" = FileState.absent)
    ∧ load_country_config fsMalformedDefault "mars"
        = Except.error (LoadError.parseError "south-africa"
            "Expecting value: line 1 column 1 (char 0)") := by
  refine ⟨by simp [fsMalformedDefault], by simp [fsMalformedDefault], ?_⟩
  have hinner : load_country_config fsMalformedDefault "south-africa"
      = Except.error (LoadError.parseError "south-africa"
          "Expecting value: line 1 column 1 (char 0)") := by
    rw [load_country_config, normalize_sa]
    simp [fsMalformedDefault]
  have hm : normalize_country_name "mars" = "mars" := by decide
  rw [load_country_config, hm]
  simp [fsMalformedDefault, hinner]

/-- Claim C5, witness: on the deployed file system the absent slug `"mars"`
falls back to the South Africa config and logs exactly the fallback
warning. -/
theorem claim_C5_witness :
    load_country_config fsSouthAfricaOnly "mars"
      = Except.ok (south_africa_config, [fallbackWarning "mars"]) :=
  (claim_C5_fallback_corrected fsSouthAfricaOnly south_africa_config "mars"
      (by simp [fsSouthAfricaOnly])).2
    (by
      rw [show normalize_country_name "mars" = "mars" from by decide]
      simp [fsSouthAfricaOnly])

/-- Claim C6.  A slug whose file is present but malformed raises a parse
error carrying the decoder's message, for every file system — in particular
it never falls back to the default config, whatever the state of the default
file. -/
theorem claim_C6_parse_error :
    ∀ (fs : String → FileState) (name msg : String),
      fs (normalize_country_name name) = FileState.malformed msg →
      load_country_config fs name
        = Except.error (LoadError.parseError (normalize_country_name name) msg) := by
  intro fs name msg h
  rw [load_country_config, h]

/-- Claim C6, witness: a file system whose every file is malformed (so that
the default file is parseable in no way) raises the parse error for the slug
that `"ZA"` normalizes to. -/
theorem claim_C6_witness :
    load_country_config (fun _ => FileState.malformed "bad token") "ZA"
      = Except.error (LoadError.parseError "south-africa" "bad token") := by
  have h := claim_C6_parse_error (fun _ => FileState.malformed "bad token") "ZA" "bad token" rfl
  rw [show normalize_country_name "ZA" = "south-africa" from by decide] at h
  exact h

/-- Claim C10.  Omitting the country (None) and passing the empty string are
observably equivalent to requesting `"south-africa"` explicitly: the final
prompt computation and the config load are identical, for every file system
and every address. -/
theorem claim_C10_default_equivalence :
    ∀ (fs : String → FileState) (address : String),
      (build_final_prompt fs address none = build_final_prompt fs address (some "south-africa")
        ∧ build_final_prompt fs address (some "")
            = build_final_prompt fs address (some "south-africa"))
      ∧ (load_country_config fs (countryOrDefault none)
            = load_country_config fs "south-africa"
        ∧ load_country_config fs (countryOrDefault (some ""))
            = load_country_config fs "south-africa") := by
  intro fs address
  have h1 : countryOrDefault none = "south-africa" := rfl
  have h2 : countryOrDefault (some "") = "south-africa" := by simp [countryOrDefault]
  have h3 : countryOrDefault (some "south-africa") = "south-africa" := by simp [countryOrDefault]
  refine ⟨⟨?_, ?_⟩, ?_, ?_⟩
  · rw [build_final_prompt, build_final_prompt, h1, h3]
  · rw [build_final_prompt, build_final_prompt, h2, h3]
  · rw [h1]
  · rw [h2]

/-- Claim C2.  The band function is total on the integers and maps 90 and
above (hence all of 90–100 and every clamped-over score such as 105) to High,
70–89 to Medium, 50–69 to Low and everything below 50 (including negative
scores such as -5) to Unusable; the frontend's `getStatusBadge` styling draws
its green tier at exactly the scores whose band is High. -/
theorem claim_C2_band_total :
    (∀ s : Int, 90 ≤ s → band s = Level.High)
    ∧ (∀ s : Int, 70 ≤ s → s ≤ 89 → band s = Level.Medium)
    ∧ (∀ s : Int, 50 ≤ s → s ≤ 69 → band s = Level.Low)
    ∧ (∀ s : Int, s ≤ 49 → band s = Level.Unusable)
    ∧ band 105 = Level.High
    ∧ band (-5) = Level.Unusable
    ∧ (∀ s : Int,
        (getStatusBadge s = "bg-green-50 text-green-700 border border-green-200"
          ↔ band s = Level.High)) := by
  refine ⟨?_, ?_, ?_, ?_, by decide, by decide, ?_⟩
  · intro s h
    rw [band, if_pos h]
  · intro s h1 h2
    rw [band, if_neg (by omega), if_pos h1]
  · intro s h1 h2
    rw [band, if_neg (by omega), if_neg (by omega), if_pos h1]
  · intro s h
    rw [band, if_neg (by omega), if_neg (by omega), if_neg (by omega)]
  · intro s
    by_cases h90 : 90 ≤ s
    · rw [band, if_pos h90, getStatusBadge, if_pos h90]
      simp
    · rw [band, if_neg h90, getStatusBadge, if_neg h90]
      by_cases h70 : 70 ≤ s
      · rw [if_pos h70, if_pos h70]
        simp
      · rw [if_neg h70, if_neg h70]
        by_cases h50 : 50 ≤ s
        · rw [if_pos h50, if_pos h50]
          simp
        · rw [if_neg h50, if_neg h50]
          simp

/-- Claim C2, witness: the band bounds applied at the concrete scores the
spec lists. -/
theorem claim_C2_witness :
    band 95 = Level.High ∧ band 89 = Level.Medium
    ∧ band 69 = Level.Low ∧ band 10 = Level.Unusable :=
  ⟨claim_C2_band_total.1 95 (by decide),
   claim_C2_band_total.2.1 89 (by decide) (by decide),
   claim_C2_band_total.2.2.1 69 (by decide) (by decide),
   claim_C2_band_total.2.2.2.1 10 (by decide)⟩

/-- Claim C1.  The confidence level of every processed result is recomputed
from the numeric score by `band` — the oracle's self-reported band has no
influence on it — and when the self-reported band disagrees with the
recomputed one, exactly one data-quality flag is appended to the issues list
(and nothing is appended when they agree). -/
theorem claim_C1_level_recomputed :
    ∀ o : OracleOutput,
      (process_oracle_output o).confidence_level = band o.score
      ∧ (∀ l1 l2 : Level,
          (process_oracle_output { o with band := l1 }).confidence_level
            = (process_oracle_output { o with band := l2 }).confidence_level)
      ∧ (o.band ≠ band o.score →
          (process_oracle_output o).issues
            = o.issues ++ [bandMismatchIssue o.band (band o.score)])
      ∧ (o.band = band o.score → (process_oracle_output o).issues = o.issues) := by
  intro o
  refine ⟨rfl, fun l1 l2 => rfl, ?_, ?_⟩
  · intro h
    simp [process_oracle_output, h]
  · intro h
    simp [process_oracle_output, h]

/-- Claim C1, witness: a concrete response scoring 95 while self-reporting
Low gets level High recomputed and the data-quality flag appended. -/
theorem claim_C1_witness :
    (process_oracle_output demoOracle).confidence_level = band demoOracle.score
    ∧ (process_oracle_output demoOracle).issues
        = demoOracle.issues ++ [bandMismatchIssue demoOracle.band (band demoOracle.score)] :=
  ⟨(claim_C1_level_recomputed demoOracle).1,
   (claim_C1_level_recomputed demoOracle).2.2.1 (by decide)⟩

/-- Claim C3.  Completeness is Complete exactly when street, city and
province are all non-null and the recomputed band is High or Medium; the
completeness value the oracle declared never determines the processed
result's completeness (replacing it by anything leaves the result's
completeness unchanged, always equal to the re-derived value). -/
theorem claim_C3_completeness_rule :
    (∀ (f : OracleFields) (b : Level),
      completeness_of f b = Completeness.Complete
        ↔ (f.streetName.isSome ∧ f.city.isSome ∧ f.province.isSome
            ∧ (b = Level.High ∨ b = Level.Medium)))
    ∧ (∀ (o : OracleOutput) (c : Completeness),
        (process_oracle_output { o with completeness := c }).completeness
          = completeness_of o.fields (band o.score)) := by
  constructor
  · intro f b
    by_cases h : (f.streetName.isSome ∧ f.city.isSome ∧ f.province.isSome
        ∧ (b = Level.High ∨ b = Level.Medium))
    · rw [completeness_of, if_pos h]
      simp [h]
    · rw [completeness_of, if_neg h]
      simp [h]
  · intro o c
    rfl

/-- Claim C3, witness: the rule applied at the concrete demo fields and at
the demo response with its declared completeness overridden. -/
theorem claim_C3_witness :
    completeness_of demoFields Level.High = Completeness.Complete
    ∧ (process_oracle_output
          { demoOracle with completeness := Completeness.Incomplete }).completeness
        = completeness_of demoOracle.fields (band demoOracle.score) :=
  ⟨(claim_C3_completeness_rule.1 demoFields Level.High).mpr (by decide),
   claim_C3_completeness_rule.2 demoOracle Completeness.Incomplete⟩

/-! Batch-job invariants. -/

theorem jobTrace_head (j : BatchJob) (rest : List RowResult) :
    (jobTrace j rest).head? = some j := by
  cases rest <;> rfl

theorem jobTrace_invariants : ∀ (rest : List RowResult) (j : BatchJob),
    j.total = j.processed_count + rest.length →
    (j.status = JobStatus.complete ↔ j.processed_count = j.total) →
    ((∀ jb ∈ jobTrace j rest,
        jb.processed_count ≤ jb.total ∧ jb.total = j.total
          ∧ (jb.status = JobStatus.complete ↔ jb.processed_count = jb.total))
      ∧ List.Chain' (fun a b => a.processed_count < b.processed_count) (jobTrace j rest))
  | [], j, htot, hst => by
      constructor
      · intro jb hjb
        rw [jobTrace] at hjb
        rw [List.mem_singleton] at hjb
        subst hjb
        exact ⟨by omega, rfl, hst⟩
      · rw [jobTrace]
        simp
  | o :: rest', j, htot, hst => by
      rw [List.length_cons] at htot
      have hnext : (stepJob j o).total = (stepJob j o).processed_count + rest'.length := by
        simp only [stepJob]
        omega
      have hnextst : ((stepJob j o).status = JobStatus.complete
          ↔ (stepJob j o).processed_count = (stepJob j o).total) := by
        simp only [stepJob]
        by_cases h : j.processed_count + 1 = j.total
        · simp [h]
        · simp [h]
      obtain ⟨hmem, hchain⟩ := jobTrace_invariants rest' (stepJob j o) hnext hnextst
      constructor
      · intro jb hjb
        rw [jobTrace] at hjb
        rcases List.mem_cons.mp hjb with rfl | h'
        · exact ⟨by omega, rfl, hst⟩
        · obtain ⟨h1, h2, h3⟩ := hmem jb h'
          exact ⟨h1, h2.trans rfl, h3⟩
      · rw [jobTrace, List.chain'_cons']
        refine ⟨?_, hchain⟩
        intro b hb
        rw [jobTrace_head] at hb
        rw [Option.mem_def, Option.some.injEq] at hb
        subst hb
        show j.processed_count < (stepJob j o).processed_count
        simp [stepJob]

theorem foldl_stepJob_final : ∀ (rest : List RowResult) (j : BatchJob),
    j.total = j.processed_count + rest.length →
    j.results.length = j.processed_count →
    (j.status = JobStatus.complete ↔ j.processed_count = j.total) →
    ((rest.foldl stepJob j).processed_count = j.total
      ∧ (rest.foldl stepJob j).results.length = j.total
      ∧ (rest.foldl stepJob j).total = j.total
      ∧ ((rest.foldl stepJob j).status = JobStatus.complete
          ↔ (rest.foldl stepJob j).processed_count = (rest.foldl stepJob j).total))
  | [], j, htot, hres, hst => by
      rw [List.length_nil] at htot
      rw [List.foldl_nil]
      refine ⟨by omega, by omega, rfl, hst⟩
  | o :: rest', j, htot, hres, hst => by
      rw [List.length_cons] at htot
      rw [List.foldl_cons]
      have hnext : (stepJob j o).total = (stepJob j o).processed_count + rest'.length := by
        simp only [stepJob]
        omega
      have hresnext : (stepJob j o).results.length = (stepJob j o).processed_count := by
        simp only [stepJob]
        rw [List.length_append, hres]
        rfl
      have hnextst : ((stepJob j o).status = JobStatus.complete
          ↔ (stepJob j o).processed_count = (stepJob j o).total) := by
        simp only [stepJob]
        by_cases h : j.processed_count + 1 = j.total
        · simp [h]
        · simp [h]
      obtain ⟨h1, h2, h3, h4⟩ := foldl_stepJob_final rest' (stepJob j o) hnext hresnext hnextst
      exact ⟨h1.trans rfl, h2.trans rfl, h3.trans rfl, h4⟩

/-- Claim C8.  For every non-empty batch, the committed result list of the
final state has exactly one entry per input row no matter how many rows
failed, the processed count never exceeds the total along any observed state
and strictly increases from state to state until it reaches the total, and
the exact progress percentage of an observed state equals 100 precisely when
that state's status is `complete`. -/
theorem claim_C8_batch_invariants :
    ∀ outcomes : List RowResult, outcomes ≠ [] →
      ((runFinal outcomes).results.length = outcomes.length
        ∧ (runFinal outcomes).processed_count = outcomes.length
        ∧ (runFinal outcomes).status = JobStatus.complete
        ∧ (∀ jb ∈ runJob outcomes,
            jb.processed_count ≤ jb.total ∧ jb.total = outcomes.length)
        ∧ List.Chain' (fun a b => a.processed_count < b.processed_count) (runJob outcomes)
        ∧ (∀ jb ∈ runJob outcomes,
            (progress_percentage jb = 100 ↔ jb.status = JobStatus.complete))) := by
  intro outcomes hne
  have hn : outcomes.length ≠ 0 := fun h => hne (List.length_eq_zero.mp h)
  have hsub : submitJob outcomes.length
      = ⟨JobStatus.pending, outcomes.length, 0, []⟩ := by
    rw [submitJob, if_neg hn]
  have hsubtot : (submitJob outcomes.length).total
      = (submitJob outcomes.length).processed_count + outcomes.length := by
    rw [hsub]
    simp
  have hsubres : (submitJob outcomes.length).results.length
      = (submitJob outcomes.length).processed_count := by
    rw [hsub]
    simp
  have hsubst : ((submitJob outcomes.length).status = JobStatus.complete
      ↔ (submitJob outcomes.length).processed_count = (submitJob outcomes.length).total) := by
    rw [hsub]
    constructor
    · intro h
      exact absurd h (by simp)
    · intro h
      exact absurd h.symm hn
  obtain ⟨hf1, hf2, hf3, hf4⟩ :=
    foldl_stepJob_final outcomes (submitJob outcomes.length) hsubtot hsubres hsubst
  obtain ⟨hmem, hchain⟩ := jobTrace_invariants outcomes (submitJob outcomes.length) hsubtot hsubst
  have hsubtot' : (submitJob outcomes.length).total = outcomes.length := by rw [hsub]
  refine ⟨?_, ?_, ?_, ?_, hchain, ?_⟩
  · rw [runFinal] at *
    rw [hf2, hsubtot']
  · rw [runFinal] at *
    rw [hf1, hsubtot']
  · rw [runFinal] at *
    rw [hf4, hf1, hf3]
  · intro jb hjb
    obtain ⟨h1, h2, -⟩ := hmem jb hjb
    exact ⟨h1, h2.trans hsubtot'⟩
  · intro jb hjb
    obtain ⟨h1, h2, h3⟩ := hmem jb hjb
    have ht0 : (jb.total : ℚ) ≠ 0 := by
      rw [h2, hsubtot']
      exact_mod_cast hn
    rw [progress_percentage, h3]
    constructor
    · intro hp
      field_simp at hp
      have hnat : jb.processed_count * 100 = 100 * jb.total := by exact_mod_cast hp
      omega
    · intro hp
      rw [hp]
      rw [div_self ht0, one_mul]

/-- Claim C8, witness: a concrete two-row batch in which every row failed
still commits two results, completes, and shows 100 percent exactly at its
final state. -/
theorem claim_C8_witness :
    (runFinal demoOutcomes).results.length = demoOutcomes.length
    ∧ (runFinal demoOutcomes).processed_count = demoOutcomes.length
    ∧ (runFinal demoOutcomes).status = JobStatus.complete
    ∧ (∀ jb ∈ runJob demoOutcomes,
        jb.processed_count ≤ jb.total ∧ jb.total = demoOutcomes.length)
    ∧ List.Chain' (fun a b => a.processed_count < b.processed_count) (runJob demoOutcomes)
    ∧ (∀ jb ∈ runJob demoOutcomes,
        (progress_percentage jb = 100 ↔ jb.status = JobStatus.complete)) :=
  claim_C8_batch_invariants demoOutcomes (by simp [demoOutcomes])

/-- Claim C9.  Triggering twice in a row for the same (result, actionType)
pair returns the identical reference both times and leaves the tracker state
of the first trigger untouched — no duplicate confirmation record is ever
created by the repeat, whatever the starting state. -/
theorem claim_C9_trigger_idempotent :
    ∀ (st : Tracker) (rid : String) (a : ActionType),
      (trigger (trigger st rid a).2 rid a).1 = (trigger st rid a).1
      ∧ (trigger (trigger st rid a).2 rid a).2 = (trigger st rid a).2 := by
  intro st rid a
  have key : findRec (rid, a) (trigger st rid a).2.records
      = some ⟨(trigger st rid a).1, ConfStatus.triggered⟩ := by
    rw [trigger]
    cases hf : findRec (rid, a) st.records with
    | none =>
        dsimp only
        simp [findRec]
    | some rec =>
        dsimp only
        by_cases hs : rec.status = ConfStatus.triggered
        · rw [if_pos hs]
          dsimp only
          rw [hf, ← hs]
        · rw [if_neg hs]
          dsimp only
          simp [findRec]
  have hpair : trigger (trigger st rid a).2 rid a
      = ((trigger st rid a).1, (trigger st rid a).2) := by
    rw [trigger, key]
    simp
  exact ⟨congrArg Prod.fst hpair, congrArg Prod.snd hpair⟩

end Shipsy
